import Mathlib

/-!
Verification development for the LibMeshCtrl client library (meshcentral.mjs).

The definitions below are a shallow embedding, translated from the JavaScript
source, of the parts of the library that the checked claims are about:

* `_compare_obj`            — the structural event-filter matcher;
* `Session._get_command_id` / the id-probing loop of `Session._send_command`;
* the `close`-handler installed by `Session._initialize`;
* `_Tunnel._initialize`'s relay-acknowledgement callback;
* `_Files._get_request_id`, `_Files._send_command`'s promise chain,
  `_Files._handle_upload`'s chunk framing, `_Files._handle_download`;
* `_Shell.read` and `_Shell.expect`.

JavaScript numbers that are used as machine counters are modelled as `Nat`
with explicit `% (2^32 - 1)` where the source reduces them; `Buffer`s are
`List Nat` (byte lists); JSON values are the inductive `JSVal`.
-/

/-- Model of the JavaScript values that flow through the library's
filter matcher: JSON data (objects, arrays, strings, numbers, booleans,
null) plus `undefined` (result of a missing property lookup) and `Set`
instances (the documented filter syntax allows them). -/
inductive JSVal where
  | undefined : JSVal
  | null : JSVal
  | bool (b : Bool) : JSVal
  | num (n : Int) : JSVal
  | str (s : String) : JSVal
  | obj (fields : List (String × JSVal)) : JSVal
  | arr (elems : List JSVal) : JSVal
  | set (elems : List JSVal) : JSVal

/-- JavaScript truthiness: `undefined`, `null`, `false`, `0` and `""` are
falsy, everything else (including every object, array and set) is truthy. -/
def jsTruthy : JSVal → Bool
  | .undefined => false
  | .null => false
  | .bool b => b
  | .num n => n != 0
  | .str s => s != ""
  | _ => true

/-- Truth of `v instanceof Object`: JavaScript objects, arrays and sets are
all `Object` instances; primitives are not. -/
def isObjectInst : JSVal → Bool
  | .obj _ => true
  | .arr _ => true
  | .set _ => true
  | _ => false

/-- Truth of `v instanceof Set`. -/
def isSetInst : JSVal → Bool
  | .set _ => true
  | _ => false

/-- Truth of `v instanceof Array`. -/
def isArrInst : JSVal → Bool
  | .arr _ => true
  | _ => false

/-- Strict equality `===` for the values compared in `_compare_obj`'s final
branch. That branch is reached only when the left operand is a primitive, so
reference equality of objects is never exercised and is modelled as `false`. -/
def jsStrictEq : JSVal → JSVal → Bool
  | .undefined, .undefined => true
  | .null, .null => true
  | .bool a, .bool b => a == b
  | .num a, .num b => a == b
  | .str a, .str b => a == b
  | _, _ => false

/-- Helper: decimal value of a digit-character list, `none` if any character
is not a digit. -/
def digitsToNatVal : List Char → Option Nat
  | [] => some 0
  | c :: rest =>
    if c.isDigit then
      match digitsToNatVal rest with
      | some n => some ((c.toNat - '0'.toNat) * 10 ^ rest.length + n)
      | none => none
    else none

/-- Truth of `key` being a canonical JavaScript array index string
(a run of digits with no leading zero, except `"0"` itself), together with
its numeric value. -/
def jsIndexVal (key : String) : Option Nat :=
  match key.data with
  | [] => none
  | c :: rest =>
    if c == '0' && rest != [] then none
    else digitsToNatVal (c :: rest)

/-- Property lookup `o[key]` on a JavaScript value: objects look up their own
field; arrays expose canonical numeric indices and `length`; strings expose
their characters and `length`; any other lookup yields `undefined`
(lookups on `null`/`undefined` would throw, but `_compare_obj` only reaches
them behind a truthiness guard, so `undefined` is safe here). -/
def jsGet : JSVal → String → JSVal
  | .obj fields, key =>
    match fields.find? (fun f => f.1 == key) with
    | some f => f.2
    | none => .undefined
  | .arr elems, key =>
    if key == "length" then .num elems.length
    else
      match jsIndexVal key with
      | some i => elems.getD i .undefined
      | none => .undefined
  | .str s, key =>
    if key == "length" then .num s.length
    else
      match jsIndexVal key with
      | some i =>
        match s.data.get? i with
        | some c => .str (String.mk [c])
        | none => .undefined
      | none => .undefined
  | _, _ => .undefined

/-- Helper for `jsEntries` on arrays: `Object.entries` of an array lists
`("0", a₀), ("1", a₁), …`. -/
def arrEntriesFrom (i : Nat) : List JSVal → List (String × JSVal)
  | [] => []
  | x :: rest => (toString i, x) :: arrEntriesFrom (i + 1) rest

/-- Helper for `jsEntries` on strings: `Object.entries` of a string lists its
characters as singleton strings under their index keys. -/
def strEntriesFrom (i : Nat) : List Char → List (String × JSVal)
  | [] => []
  | c :: rest => (toString i, JSVal.str (String.mk [c])) :: strEntriesFrom (i + 1) rest

/-- Model of `Object.entries(v)`: own enumerable entries of a value. Plain
objects list their fields, arrays and strings list their indexed entries; a
`Set` keeps its elements in internal slots, so it has no own enumerable
entries; primitives have none. -/
def jsEntries : JSVal → List (String × JSVal)
  | .obj fields => fields
  | .arr elems => arrEntriesFrom 0 elems
  | .str s => strEntriesFrom 0 s.data
  | _ => []

/-- Model of `for (const x of v)`: arrays, sets and strings are iterable
(strings iterate their characters); iterating anything else throws, which
`_compare_obj` catches, so non-iterables are `none` here. -/
def jsIterate : JSVal → Option (List JSVal)
  | .arr elems => some elems
  | .set elems => some elems
  | .str s => some (s.data.map (fun c => JSVal.str (String.mk [c])))
  | _ => none

/-- Truth of `v.length` for the dead `instanceof Array` branch of
`_compare_obj`: arrays and strings have a numeric `length`, anything else
yields `undefined` (and `n !== undefined` is true). -/
def jsLength : JSVal → Option Nat
  | .arr elems => some elems.length
  | .str s => some s.length
  | _ => none

/-- Entry values of `jsEntries` are structurally smaller than the value
itself whenever they are `Object` instances (the only case in which
`_compare_obj` recurses on them; a string's entries are single-character
strings, never `Object` instances). -/
theorem jsEntries_sizeOf_lt {p : JSVal} {kv : String × JSVal}
    (hkv : kv ∈ jsEntries p) (hobj : isObjectInst kv.2 = true) :
    sizeOf kv.2 < sizeOf p := by
  have hsnd : ∀ (l : List (String × JSVal)), kv ∈ l → sizeOf kv.2 < sizeOf l := by
    intro l hl
    have h1 := List.sizeOf_lt_of_mem hl
    obtain ⟨a, b⟩ := kv
    simp only [Prod.mk.sizeOf_spec] at h1
    show sizeOf b < sizeOf l
    omega
  have harr : ∀ (xs : List JSVal) (i : Nat), kv ∈ arrEntriesFrom i xs → kv.2 ∈ xs := by
    intro xs
    induction xs with
    | nil => intro i h; simp [arrEntriesFrom] at h
    | cons x rest ih =>
      intro i h
      simp only [arrEntriesFrom, List.mem_cons] at h
      rcases h with h | h
      · subst h; exact List.mem_cons_self _ _
      · exact List.mem_cons_of_mem _ (ih _ h)
  have hstr : ∀ (cs : List Char) (i : Nat), kv ∈ strEntriesFrom i cs → ∃ t, kv.2 = .str t := by
    intro cs
    induction cs with
    | nil => intro i h; simp [strEntriesFrom] at h
    | cons c rest ih =>
      intro i h
      simp only [strEntriesFrom, List.mem_cons] at h
      rcases h with h | h
      · subst h; exact ⟨_, rfl⟩
      · exact ih _ h
  cases p with
  | obj fields =>
    have := hsnd fields hkv
    simp only [JSVal.obj.sizeOf_spec]
    omega
  | arr elems =>
    have hmem := harr elems 0 hkv
    have := List.sizeOf_lt_of_mem hmem
    simp only [JSVal.arr.sizeOf_spec]
    omega
  | str s =>
    obtain ⟨t, ht⟩ := hstr s.data 0 hkv
    rw [ht] at hobj
    simp [isObjectInst] at hobj
  | undefined => simp [jsEntries] at hkv
  | null => simp [jsEntries] at hkv
  | bool b => simp [jsEntries] at hkv
  | num n => simp [jsEntries] at hkv
  | set elems => simp [jsEntries] at hkv

/-- Translation of the source's `_compare_obj(obj1, obj2)`. The body mirrors
the source line by line: for every entry `[key, val]` of
`Object.entries(obj1)`, `if (!obj2[key]) return false`;
`if (val instanceof Object)` recurse on `(val, obj2[key])`;
`else if (val instanceof Set)` require each set element to deep-match some
element iterated from `obj2[key]` (a failed iteration is caught and counts
as non-match); `else if (val instanceof Array)` compare every array element
against `obj2[key]` and then require equal `length`s; else strict-compare
`obj2[key] !== val`. The `instanceof Set` and `instanceof Array` branches
are unreachable, because a JS `Set` or `Array` already satisfies
`val instanceof Object`; they are embedded nonetheless, and their
recursive calls are justified vacuously in the termination proof. -/
def compare_obj (obj1 obj2 : JSVal) : Bool :=
  (jsEntries obj1).attach.all fun kvh =>
    let v2 := jsGet obj2 kvh.1.1
    if jsTruthy v2 = false then false
    else if hobj : isObjectInst kvh.1.2 then compare_obj kvh.1.2 v2
    else if isSetInst kvh.1.2 then
      match hset : kvh.1.2 with
      | .set elems =>
        elems.all fun v =>
          match jsIterate v2 with
          | none => false
          | some cands => cands.any fun c => compare_obj v c
      | _ => true
    else if isArrInst kvh.1.2 then
      match harr : kvh.1.2 with
      | .arr elems =>
        (elems.all fun v => compare_obj v v2) &&
          (match jsLength v2 with
           | some n => elems.length == n
           | none => false)
      | _ => true
    else jsStrictEq v2 kvh.1.2
termination_by sizeOf obj1
decreasing_by
  · exact jsEntries_sizeOf_lt kvh.2 hobj
  · rw [hset] at hobj; simp [isObjectInst] at hobj
  · rw [harr] at hobj; simp [isObjectInst] at hobj

/-- Helper: an `all` over an attached list whose body only uses the value
equals the plain `all`. -/
theorem list_all_attach {α : Type} (l : List α) (g : α → Bool) :
    (l.attach.all fun x => g x.1) = l.all g := by
  rw [Bool.eq_iff_iff]
  simp only [List.all_eq_true, List.mem_attach, true_implies, Subtype.forall]

/-- Unfolding equation for `compare_obj` in which the two dead
`instanceof Set` / `instanceof Array` branches have been eliminated: since
JS sets and arrays are `Object` instances, every entry whose value is an
object, array or set recurses generically through the `instanceof Object`
branch (in particular no array-length check is ever performed), and every
entry whose value is a primitive is strict-compared, all guarded by
truthiness of the candidate-side lookup. -/
theorem compare_obj_eval (p c : JSVal) :
    compare_obj p c = (jsEntries p).all fun kv =>
      jsTruthy (jsGet c kv.1) &&
        (if isObjectInst kv.2 then compare_obj kv.2 (jsGet c kv.1)
         else jsStrictEq (jsGet c kv.1) kv.2) := by
  rw [compare_obj]
  rw [list_all_attach (jsEntries p) (fun kv =>
    let v2 := jsGet c kv.1
    if jsTruthy v2 = false then false
    else if hobj : isObjectInst kv.2 then compare_obj kv.2 v2
    else if isSetInst kv.2 then
      match hset : kv.2 with
      | .set elems =>
        elems.all fun v =>
          match jsIterate v2 with
          | none => false
          | some cands => cands.any fun cd => compare_obj v cd
      | _ => true
    else if isArrInst kv.2 then
      match harr : kv.2 with
      | .arr elems =>
        (elems.all fun v => compare_obj v v2) &&
          (match jsLength v2 with
           | some n => elems.length == n
           | none => false)
      | _ => true
    else jsStrictEq v2 kv.2)]
  congr 1
  funext kv
  cases hb : jsTruthy (jsGet c kv.1) <;>
    cases kv.2 <;>
      simp [isObjectInst, isSetInst, isArrInst, hb]

/-- Helper: membership-respecting congruence for `List.all`. -/
theorem list_all_congr_mem {α : Type} {l : List α} {f g : α → Bool}
    (h : ∀ a ∈ l, f a = g a) : l.all f = l.all g := by
  induction l with
  | nil => rfl
  | cons a t ih =>
    simp only [List.all_cons]
    rw [h a (List.mem_cons_self a t), ih (fun b hb => h b (List.mem_cons_of_mem a hb))]

/-- Helper: values of string entries are single-character strings. -/
theorem strEntriesFrom_snd {kv : String × JSVal} :
    ∀ (cs : List Char) (i : Nat), kv ∈ strEntriesFrom i cs → ∃ t, kv.2 = .str t := by
  intro cs
  induction cs with
  | nil => intro i h; simp [strEntriesFrom] at h
  | cons c rest ih =>
    intro i h
    simp only [strEntriesFrom, List.mem_cons] at h
    rcases h with h | h
    · subst h; exact ⟨_, rfl⟩
    · exact ih _ h

/-- Unfolding of `compare_obj` on an object filter. -/
theorem compare_obj_obj_eval (fields : List (String × JSVal)) (c : JSVal) :
    compare_obj (.obj fields) c = fields.all fun kv =>
      jsTruthy (jsGet c kv.1) &&
        (if isObjectInst kv.2 then compare_obj kv.2 (jsGet c kv.1)
         else jsStrictEq (jsGet c kv.1) kv.2) := by
  rw [compare_obj_eval]; rfl

/-- Unfolding of `compare_obj` on an array filter: `Object.entries` of the
array drives the same per-entry test. -/
theorem compare_obj_arr_eval (elems : List JSVal) (c : JSVal) :
    compare_obj (.arr elems) c = (arrEntriesFrom 0 elems).all fun kv =>
      jsTruthy (jsGet c kv.1) &&
        (if isObjectInst kv.2 then compare_obj kv.2 (jsGet c kv.1)
         else jsStrictEq (jsGet c kv.1) kv.2) := by
  rw [compare_obj_eval]; rfl

/-- Unfolding of `compare_obj` on a string filter: every entry value is a
single-character string, hence a primitive, so no recursion remains. -/
theorem compare_obj_str_eval (s : String) (c : JSVal) :
    compare_obj (.str s) c = (strEntriesFrom 0 s.data).all fun kv =>
      jsTruthy (jsGet c kv.1) && jsStrictEq (jsGet c kv.1) kv.2 := by
  rw [compare_obj_eval]
  show (strEntriesFrom 0 s.data).all _ = _
  apply list_all_congr_mem
  intro kv hkv
  obtain ⟨t, ht⟩ := strEntriesFrom_snd s.data 0 hkv
  rw [ht]
  simp [isObjectInst]

/-- Unfolding of `compare_obj` on primitive and `Set` filters: they have no
own enumerable entries, so they match anything. -/
theorem compare_obj_noentries_eval (c : JSVal) :
    compare_obj .undefined c = true ∧ compare_obj .null c = true ∧
      (∀ b, compare_obj (.bool b) c = true) ∧ (∀ n, compare_obj (.num n) c = true) ∧
      (∀ es, compare_obj (.set es) c = true) := by
  refine ⟨?_, ?_, ?_, ?_, ?_⟩ <;>
    first
      | (rw [compare_obj_eval]; rfl)
      | (intro x; rw [compare_obj_eval]; rfl)

theorem compare_obj_num_eval (n : Int) (c : JSVal) : compare_obj (.num n) c = true :=
  (compare_obj_noentries_eval c).2.2.2.1 n

theorem compare_obj_set_eval (es : List JSVal) (c : JSVal) : compare_obj (.set es) c = true :=
  (compare_obj_noentries_eval c).2.2.2.2 es

/-- Helper: field values are smaller than the enclosing object value. -/
theorem sizeOf_snd_lt_fields {fields : List (String × JSVal)} {kv : String × JSVal}
    (h : kv ∈ fields) : sizeOf kv.2 < sizeOf (JSVal.obj fields) := by
  have h1 := List.sizeOf_lt_of_mem h
  obtain ⟨a, b⟩ := kv
  simp only [Prod.mk.sizeOf_spec] at h1
  simp only [JSVal.obj.sizeOf_spec]
  show sizeOf b < 1 + sizeOf fields
  omega

/-- Helper: elements are smaller than the enclosing set value. -/
theorem sizeOf_lt_set {es : List JSVal} {e : JSVal} (h : e ∈ es) :
    sizeOf e < sizeOf (JSVal.set es) := by
  have := List.sizeOf_lt_of_mem h
  simp only [JSVal.set.sizeOf_spec]
  omega

/-- Helper: left components of zipped pairs are smaller than the enclosing
array value. -/
theorem sizeOf_fst_lt_arr {es cs : List JSVal} {p : JSVal × JSVal}
    (h : p ∈ es.zip cs) : sizeOf p.1 < sizeOf (JSVal.arr es) := by
  obtain ⟨a, b⟩ := p
  have hmem := (List.of_mem_zip h).1
  have := List.sizeOf_lt_of_mem hmem
  simp only [JSVal.arr.sizeOf_spec]
  show sizeOf a < 1 + sizeOf es
  omega

/-- Existence of a key in a candidate value, as required by the claim's
words "every key of the predicate is present in the candidate". -/
def jsHasKey : JSVal → String → Bool
  | .obj fields, key => fields.any (fun f => f.1 == key)
  | .arr elems, key =>
    key == "length" ||
      (match jsIndexVal key with
       | some i => i < elems.length
       | none => false)
  | .str s, key =>
    key == "length" ||
      (match jsIndexVal key with
       | some i => i < s.length
       | none => false)
  | _, _ => false

/-- Claim-side formalisation (written from the claim's words, for comparison
against the source-translated `compare_obj`): the filter matches iff every
key of the predicate is present in the candidate and recursively matches;
set-valued predicate entries require at least one deep-matching candidate
element; array-valued entries require elementwise matching at the same index
plus equal length; scalars must be strictly equal; any traversal failure
(missing key, wrong shape) counts as non-match. -/
def claimC6Match : JSVal → JSVal → Bool
  | .obj fields, c =>
    fields.attach.all fun kvh =>
      jsHasKey c kvh.1.1 && claimC6Match kvh.1.2 (jsGet c kvh.1.1)
  | .set es, c =>
    es.attach.all fun eh =>
      match jsIterate c with
      | some cands => cands.any fun cd => claimC6Match eh.1 cd
      | none => false
  | .arr es, c =>
    match c with
    | .arr cs =>
      es.length == cs.length &&
        ((es.zip cs).attach.all fun ph => claimC6Match ph.1.1 ph.1.2)
    | _ => false
  | v, c => jsStrictEq c v
termination_by v _ => sizeOf v
decreasing_by
  · exact sizeOf_snd_lt_fields kvh.2
  · exact sizeOf_lt_set eh.2
  · exact sizeOf_fst_lt_arr ph.2

/-- Unfolding of `claimC6Match` on an object predicate. -/
theorem claimC6_obj_eval (fields : List (String × JSVal)) (c : JSVal) :
    claimC6Match (.obj fields) c = fields.all fun kv =>
      jsHasKey c kv.1 && claimC6Match kv.2 (jsGet c kv.1) := by
  simp only [claimC6Match]
  exact list_all_attach fields (fun kv => jsHasKey c kv.1 && claimC6Match kv.2 (jsGet c kv.1))

/-- Unfolding of `claimC6Match` on a set predicate. -/
theorem claimC6_set_eval (es : List JSVal) (c : JSVal) :
    claimC6Match (.set es) c = es.all fun e =>
      match jsIterate c with
      | some cands => cands.any fun cd => claimC6Match e cd
      | none => false := by
  simp only [claimC6Match]
  exact list_all_attach es (fun e =>
    match jsIterate c with
    | some cands => cands.any fun cd => claimC6Match e cd
    | none => false)

/-- Unfolding of `claimC6Match` on an array predicate. -/
theorem claimC6_arr_eval (es : List JSVal) (c : JSVal) :
    claimC6Match (.arr es) c =
      (match c with
       | .arr cs =>
         es.length == cs.length && ((es.zip cs).all fun p => claimC6Match p.1 p.2)
       | _ => false) := by
  cases c <;> simp only [claimC6Match]
  congr 1
  exact list_all_attach _ (fun p : JSVal × JSVal => claimC6Match p.1 p.2)

/-- Unfolding of `claimC6Match` on a numeric predicate. -/
theorem claimC6_num_eval (n : Int) (c : JSVal) :
    claimC6Match (.num n) c = jsStrictEq c (.num n) := by
  simp only [claimC6Match]

/-- C6 (counterexample): on the predicate `{a: [1]}` and the candidate
`{a: [1, 2]}` the claim's matcher (array entries need elementwise matching
plus equal length) rejects, but the source's `_compare_obj` accepts: the
`instanceof Object` test precedes the `instanceof Array` test and a JS
array is an `Object`, so the array branch with the length check is dead
code and the array is matched as a generic object, index-subset style. -/
theorem C6_compare_obj_counterexample :
    claimC6Match (.obj [("a", .arr [.num 1])]) (.obj [("a", .arr [.num 1, .num 2])]) = false ∧
    compare_obj (.obj [("a", .arr [.num 1])]) (.obj [("a", .arr [.num 1, .num 2])]) = true := by
  constructor
  · have hg : jsGet (.obj [("a", .arr [.num 1, .num 2])]) "a" = .arr [.num 1, .num 2] := rfl
    simp only [claimC6_obj_eval, List.all_cons, List.all_nil, hg, claimC6_arr_eval,
      claimC6_num_eval, List.zip, List.zipWith]
    decide
  · simp only [compare_obj_obj_eval, compare_obj_arr_eval, compare_obj_str_eval,
      compare_obj_num_eval, compare_obj_set_eval, List.all_cons, List.all_nil, arrEntriesFrom]
    decide

/-- C6 (amended): `_compare_obj` matches iff every key of the predicate maps
to a truthy candidate value and recursively matches, where every
object-instance predicate value (plain object, array or set — the
specialized set/array branches are unreachable since those values are
`Object` instances) recurses generically over its own enumerable entries —
so array entries match index-by-index with no length check, and set values,
having no own enumerable entries, match any truthy candidate value — and
primitive values must be strictly equal. In particular
`{event:{etype:"ugrp"}}` matches `{event:{etype:"ugrp", other:1}}` and does
not match `{event:{etype:"node"}}`; matching is a total function (never
raises). -/
theorem C6_compare_obj_amended :
    (∀ p c, compare_obj p c = (jsEntries p).all fun kv =>
      jsTruthy (jsGet c kv.1) &&
        (if isObjectInst kv.2 then compare_obj kv.2 (jsGet c kv.1)
         else jsStrictEq (jsGet c kv.1) kv.2)) ∧
    compare_obj (.obj [("event", .obj [("etype", .str "ugrp")])])
      (.obj [("event", .obj [("etype", .str "ugrp"), ("other", .num 1)])]) = true ∧
    compare_obj (.obj [("event", .obj [("etype", .str "ugrp")])])
      (.obj [("event", .obj [("etype", .str "node")])]) = false ∧
    compare_obj (.obj [("a", .arr [.num 1])]) (.obj [("a", .arr [.num 1, .num 2])]) = true ∧
    compare_obj (.obj [("a", .set [.num 99])]) (.obj [("a", .num 5)]) = true := by
  refine ⟨compare_obj_eval, ?_, ?_, ?_, ?_⟩ <;>
    (simp only [compare_obj_obj_eval, compare_obj_arr_eval, compare_obj_str_eval,
      compare_obj_num_eval, compare_obj_set_eval, List.all_cons, List.all_nil, arrEntriesFrom]
     decide)

/-- Translation of `Session._get_command_id`:
`this._command_id = (this._command_id+1)%(2**32-1); return this._command_id`.
The function maps the stored counter to its next value, which is both stored
and returned. -/
def get_command_id (command_id : Nat) : Nat :=
  (command_id + 1) % (2 ^ 32 - 1)

/-- Translation of the id-generation loop of `Session._send_command`:
`while (this._inflight.has(id = ` and then the template
string built from `meshctrl_`, the command name and `this._get_command_id()`
`)){}` — each probe advances the counter, and the loop exits with the first
id not currently in the in-flight set. The fuel bounds the probing (the
source loop can only cycle through the 2^32 − 1 counter values); `none`
models non-termination of the loop. -/
def probe_command_id (name : String) (inflight : List String) :
    Nat → Nat → Option (String × Nat)
  | _, 0 => none
  | command_id, fuel + 1 =>
    let c := get_command_id command_id
    let id := "meshctrl_" ++ name ++ "_" ++ toString c
    if id ∈ inflight then probe_command_id name inflight c fuel
    else some (id, c)

/-- Model of `EventEmitter.once(id, handler)` dispatch in
`Session._send_command`: the registered waiter fires exactly on an emission
whose event key equals its own id (`this._eventer.emit(data.responseid || data.tag, data)`). -/
def once_fires (id emitted_key : String) : Bool :=
  id == emitted_key

/-- Model of the once-handler body `this._inflight.delete(id)` run when the
waiter fires: the id is removed from the in-flight set. -/
def inflight_delete (inflight : List String) (id : String) : List String :=
  inflight.erase id

/-- Helper: a successfully probed id is not in the in-flight set. -/
theorem probe_command_id_fresh {name : String} {inflight : List String} :
    ∀ {c fuel : Nat} {id : String} {c' : Nat},
      probe_command_id name inflight c fuel = some (id, c') → id ∉ inflight := by
  intro c fuel
  induction fuel generalizing c with
  | zero => intro id c' h; simp [probe_command_id] at h
  | succ n ih =>
    intro id c' h
    rw [probe_command_id] at h
    split at h
    · exact ih h
    · next hmem =>
      obtain ⟨h1, _⟩ := Prod.mk.injEq .. ▸ Option.some.injEq .. ▸ h
      subst h1
      exact hmem

/-- C2: a correlated-request id chosen by `Session._send_command`'s probing
loop is absent from the in-flight set at the moment it is chosen, so adding
it preserves uniqueness of pending ids; the waiter registered under the id
fires exactly on the reply event carrying that id (never on another pending
request's reply key, and no other pending request's waiter fires on it),
and settlement removes the id from the in-flight set. -/
theorem C2_command_id_unique_dispatch (name : String) (inflight : List String)
    (c fuel : Nat) (id : String) (c' : Nat)
    (hnd : inflight.Nodup)
    (hgen : probe_command_id name inflight c fuel = some (id, c')) :
    id ∉ inflight ∧
      (id :: inflight).Nodup ∧
      (∀ other ∈ inflight, once_fires id other = false ∧ once_fires other id = false) ∧
      once_fires id id = true ∧
      inflight_delete (id :: inflight) id = inflight := by
  have hfresh := probe_command_id_fresh hgen
  refine ⟨hfresh, List.nodup_cons.mpr ⟨hfresh, hnd⟩, ?_, ?_, ?_⟩
  · intro other hother
    have hne : id ≠ other := fun h => hfresh (h ▸ hother)
    constructor
    · exact beq_eq_false_iff_ne.mpr hne
    · exact beq_eq_false_iff_ne.mpr (Ne.symm hne)
  · exact beq_self_eq_true id
  · exact List.erase_cons_head id inflight

/-- Witness for C2: with `meshctrl_meshes_1` pending, probing from counter 0
skips the collision and yields the fresh id `meshctrl_meshes_2`. -/
theorem C2_command_id_unique_dispatch_witness :
    "meshctrl_meshes_2" ∉ (["meshctrl_meshes_1"] : List String) ∧
      ("meshctrl_meshes_2" :: ["meshctrl_meshes_1"]).Nodup := by
  have h := C2_command_id_unique_dispatch "meshes" ["meshctrl_meshes_1"] 0 2
    "meshctrl_meshes_2" 2 (by decide) (by decide)
  exact ⟨h.1, h.2.1⟩

/-- Translation of `_Files._get_request_id`:
`this._request_id = this._request_id++%(2**32-1); return this._request_id`.
The post-increment evaluates to the old value (its own write-back of
`old + 1` is immediately overwritten by the enclosing assignment), so the
stored value becomes `old % (2^32-1)`, which is also returned. The result
is `(new stored value, returned value)`. -/
def files_get_request_id (request_id : Nat) : Nat × Nat :=
  let old := request_id
  let assigned := old % (2 ^ 32 - 1)
  (assigned, assigned)

/-- Translation of the id built by `_Files.upload`:
`` `upload_${this._get_request_id()}` `` together with the updated counter. -/
def files_upload_request_id (request_id : Nat) : String × Nat :=
  ("upload_" ++ toString (files_get_request_id request_id).2,
    (files_get_request_id request_id).1)

/-- C10: the `_Files` request-id counter never advances: starting from the
constructor value 0, any number of `_get_request_id` calls leaves it at 0
and each call returns 0; more generally the assignment writes back the
pre-increment value, so every upload request id is `upload_0`. The
Session-level counter, by contrast, advances (`_get_command_id` maps 0
to 1). -/
theorem C10_files_request_id_never_advances :
    (∀ n : Nat, (fun r => (files_get_request_id r).1)^[n] 0 = 0) ∧
      (files_get_request_id 0).2 = 0 ∧
      (∀ r : Nat, (files_get_request_id (r % (2 ^ 32 - 1))).1 = r % (2 ^ 32 - 1)) ∧
      files_upload_request_id 0 = ("upload_0", 0) ∧
      get_command_id 0 = 1 := by
  refine ⟨?_, rfl, ?_, rfl, rfl⟩
  · intro n
    induction n with
    | zero => rfl
    | succ k ih => rw [Function.iterate_succ_apply', ih]; rfl
  · intro r
    simp [files_get_request_id, Nat.mod_mod_of_dvd]

/-- Model of the settlement state of a `_Deferred`. -/
inductive DeferredOutcome where
  | pending : DeferredOutcome
  | resolvedD : DeferredOutcome
  | rejectedD (payload : JSVal) : DeferredOutcome

/-- Model of `_Deferred.reject(v)`: settles the underlying promise only if it
is still pending (a settled promise ignores further settlement calls). -/
def deferredReject (d : DeferredOutcome) (v : JSVal) : DeferredOutcome :=
  match d with
  | .pending => .rejectedD v
  | s => s

/-- State of a `_Tunnel` during `_initialize`, restricted to what the
relay-acknowledgement callback touches: the two deferreds, whether
`new ws(...)` has been constructed for the secondary socket, and `this.url`. -/
structure TunnelInitState where
  socket_open : DeferredOutcome
  initialized : DeferredOutcome
  sockCreated : Bool
  url : Option String

/-- Translation of the `.then((data2)=>{...})` callback of the correlated
`msg`/`tunnel` request inside `_Tunnel._initialize`:
`if (data2.result !== "OK") { this._socket_open.reject(data2); this.initialized.reject(data2); return }`
and otherwise `this.url = this._session.url.replace(...)` followed by
`this._sock = new ws(this.url, options)` (the secondary socket is
constructed only on the success path; `relay_url` stands for the URL
computed by the `replace` call). -/
def tunnel_relay_ack (st : TunnelInitState) (data2 : JSVal) (relay_url : String) :
    TunnelInitState :=
  if jsStrictEq (jsGet data2 "result") (.str "OK") = false then
    { st with socket_open := deferredReject st.socket_open data2,
              initialized := deferredReject st.initialized data2 }
  else
    { st with url := some relay_url, sockCreated := true }

/-- C9: if the relay-prepare request's reply has a `result` other than the
string `"OK"`, the Tunnel's readiness future rejects with the server's
payload (as does the socket-open future) and no secondary socket is
constructed or opened (the relay URL is not even assigned). -/
theorem C9_tunnel_relay_failure (st : TunnelInitState) (data2 : JSVal) (relay_url : String)
    (hres : jsStrictEq (jsGet data2 "result") (.str "OK") = false)
    (hpend : st.initialized = .pending) (hpend2 : st.socket_open = .pending)
    (hsock : st.sockCreated = false) :
    (tunnel_relay_ack st data2 relay_url).initialized = .rejectedD data2 ∧
      (tunnel_relay_ack st data2 relay_url).socket_open = .rejectedD data2 ∧
      (tunnel_relay_ack st data2 relay_url).sockCreated = false ∧
      (tunnel_relay_ack st data2 relay_url).url = st.url := by
  simp [tunnel_relay_ack, hres, hpend, hpend2, hsock, deferredReject]

/-- Witness for C9: a concrete denied relay-prepare reply. -/
theorem C9_tunnel_relay_failure_witness :
    (tunnel_relay_ack ⟨.pending, .pending, false, none⟩
        (.obj [("result", .str "Denied")]) "wss://relay").initialized =
      .rejectedD (.obj [("result", .str "Denied")]) := by
  exact (C9_tunnel_relay_failure ⟨.pending, .pending, false, none⟩
    (.obj [("result", .str "Denied")]) "wss://relay" (by decide) rfl rfl rfl).1

/-- Outcome of one evaluation of a `check_data` closure in `_Shell.read` /
`_Shell.expect`: resolve with data, reject with a reason (and, when
`return_intermediate` is set, the drained data), or reschedule the poll. -/
inductive ReadOutcome where
  | resolvedR (data : List Char) : ReadOutcome
  | rejectedR (reason : String) (data : Option (List Char)) : ReadOutcome
  | pollAgain : ReadOutcome
deriving DecidableEq

/-- Translation of one decisive evaluation of the `check_data` closure of
`_Shell.read(length, timeout, return_intermediate)`. The shell buffer is a
character list (the source freely converts between `Buffer` and text;
the claims only exercise single-byte characters). `timedOut` models
`timeout !== null && new Date() - start > timeout`; `closed` models
`this._sock.readyState > 1`, and the rejection reason is
`this._sock.readyState < 2 ? "timeout" : "closed"`. On failure with
`return_intermediate`, `obj["data"] = this._buffer.slice(0, length)` and
`this._buffer = this._buffer.slice(length)`; when `length` is `null`,
`Buffer.slice(0, null)` is empty and `Buffer.slice(null)` is the whole
buffer (a `null` bound coerces to 0). Otherwise, with a `length` given and
fewer buffered bytes the poll is rescheduled (`setTimeout(..., 100)`), and
with enough bytes the first `length` bytes are sliced off and resolved;
with `length === null` the whole buffer is resolved and reset to empty. -/
def shell_read_check (buffer : List Char) (length : Option Nat)
    (timedOut closed return_intermediate : Bool) : ReadOutcome × List Char :=
  if timedOut || closed then
    let reason := if closed = false then "timeout" else "closed"
    if return_intermediate then
      match length with
      | some l => (.rejectedR reason (some (buffer.take l)), buffer.drop l)
      | none => (.rejectedR reason (some []), buffer)
    else (.rejectedR reason none, buffer)
  else
    match length with
    | some l =>
      if buffer.length < l then (.pollAgain, buffer)
      else (.resolvedR (buffer.take l), buffer.drop l)
    | none => (.resolvedR buffer, [])

/-- Translation of one decisive evaluation of the `check_data` closure of
`_Shell.expect(regex, timeout, return_intermediate)`. `matchFirst` stands
for `this._buffer.toString().match(regex)`, returning `(m.index,
m[0].length)` of the first match, if any. On a match, the source calls
`this.read(m.index + m[0].length)` and resolves with its data; on no match
it reschedules the poll; on timeout/closure with `return_intermediate` it
drains via `this.read(1024, 100, true)` — both outcomes of that inner read
yield `buffer.slice(0, 1024)` as data and leave `buffer.slice(1024)` — and
rejects with that data attached. -/
def shell_expect_check (buffer : List Char) (matchFirst : List Char → Option (Nat × Nat))
    (timedOut closed return_intermediate : Bool) : ReadOutcome × List Char :=
  if timedOut || closed then
    let reason := if closed = false then "timeout" else "closed"
    if return_intermediate then
      (.rejectedR reason (some (buffer.take 1024)), buffer.drop 1024)
    else (.rejectedR reason none, buffer)
  else
    match matchFirst buffer with
    | some (idx, len) => shell_read_check buffer (some (idx + len)) false false false
    | none => (.pollAgain, buffer)

/-- Helper: prefix test for the literal-text regex model. -/
def listStartsWith : List Char → List Char → Bool
  | [], _ => true
  | _ :: _, [] => false
  | p :: ps, c :: cs => p == c && listStartsWith ps cs

/-- Helper: leftmost occurrence search, accumulating the start index. -/
def findFirstFrom (pat : List Char) : List Char → Nat → Option (Nat × Nat)
  | [], i => if listStartsWith pat [] then some (i, pat.length) else none
  | c :: rest, i =>
    if listStartsWith pat (c :: rest) then some (i, pat.length)
    else findFirstFrom pat rest (i + 1)

/-- Model of `text.match(regex)` for a literal-text pattern: the index of the
first occurrence and the matched length, as `_Shell.expect` consumes them. -/
def regex_first_match (pat : String) (s : List Char) : Option (Nat × Nat) :=
  findFirstFrom pat.data s 0

/-- C7: when the buffer has a first regex match at index `idx` of length
`len`, `expect` resolves with exactly the bytes from the start of the buffer
through the end of the match inclusive (`buffer.take (idx + len)`, consumed
via `read`), and the bytes after the match remain buffered. -/
theorem C7_shell_expect_consumes_through_match (buffer : List Char)
    (matchFirst : List Char → Option (Nat × Nat)) (idx len : Nat) (ri : Bool)
    (hm : matchFirst buffer = some (idx, len)) (hlen : idx + len ≤ buffer.length) :
    shell_expect_check buffer matchFirst false false ri =
      (.resolvedR (buffer.take (idx + len)), buffer.drop (idx + len)) := by
  simp [shell_expect_check, hm, shell_read_check, if_neg (Nat.not_lt.mpr hlen)]

/-- Witness for C7: buffer `"foo READY\nbar"` and a pattern matching
`"READY\n"` resolve with `"foo READY\n"` and leave `"bar"` buffered. -/
theorem C7_shell_expect_consumes_through_match_witness :
    shell_expect_check "foo READY\nbar".data (regex_first_match "READY\n") false false false =
      (.resolvedR "foo READY\n".data, "bar".data) := by
  rw [C7_shell_expect_consumes_through_match "foo READY\nbar".data
    (regex_first_match "READY\n") 4 6 false (by decide) (by decide)]
  decide

/-- C8: a `read(length, timeout, keepOnTimeout)` that fails by timeout or
closure leaves the buffer entirely untouched when `keepOnTimeout`
(`return_intermediate`) is false — so a subsequent read still obtains the
first `length` bytes — and, when `keepOnTimeout` is true, slices up to
`length` bytes off the front of the buffer and returns them attached to the
failure. -/
theorem C8_shell_read_timeout_buffer (buffer : List Char) (l : Nat)
    (timedOut closed : Bool) (hfail : (timedOut || closed) = true) :
    shell_read_check buffer (some l) timedOut closed false =
      (.rejectedR (if closed = false then "timeout" else "closed") none, buffer) ∧
      (l ≤ buffer.length →
        shell_read_check buffer (some l) false false false =
          (.resolvedR (buffer.take l), buffer.drop l)) ∧
      shell_read_check buffer (some l) timedOut closed true =
        (.rejectedR (if closed = false then "timeout" else "closed")
          (some (buffer.take l)), buffer.drop l) := by
  refine ⟨?_, ?_, ?_⟩
  · simp [shell_read_check, hfail]
  · intro hle
    simp [shell_read_check, if_neg (Nat.not_lt.mpr hle)]
  · simp [shell_read_check, hfail]

/-- Witness for C8: a timed-out 4-byte read of `"abcdef"` leaves the buffer
intact (and a retry yields `"abcd"`), while `keepOnTimeout` removes and
returns `"abcd"`. -/
theorem C8_shell_read_timeout_buffer_witness :
    shell_read_check "abcdef".data (some 4) true false false =
      (.rejectedR "timeout" none, "abcdef".data) ∧
      shell_read_check "abcdef".data (some 4) false false false =
        (.resolvedR "abcd".data, "ef".data) ∧
      shell_read_check "abcdef".data (some 4) true false true =
        (.rejectedR "timeout" (some "abcd".data), "ef".data) := by
  have h := C8_shell_read_timeout_buffer "abcdef".data 4 true false (by decide)
  exact ⟨h.1.trans (by decide), (h.2.1 (by decide)).trans (by decide),
    h.2.2.trans (by decide)⟩

/-- Model of `Buffer.alloc(n)`: a zero-initialized byte buffer. -/
def bufferAlloc (n : Nat) : List Nat :=
  List.replicate n 0

/-- Model of `src.copy(target, targetStart)`: writes `src` into `target`
starting at `targetStart`, truncating at the end of `target`; the bytes of
`target` outside the written region are preserved. -/
def bufferCopy (target : List Nat) (targetStart : Nat) (src : List Nat) : List Nat :=
  target.take targetStart ++ src.take (target.length - targetStart) ++
    target.drop (targetStart + src.length)

/-- Model of `buf.slice(start, stop)`: the bytes from `start` (inclusive) to
`stop` (exclusive), clamped to the buffer. -/
def bufferSlice (buf : List Nat) (start stop : Nat) : List Nat :=
  (buf.take stop).drop start

/-- Translation of the `"data"` listener installed on the chunker by
`_Files._handle_upload` (the `uploadstart` branch):
`let buf = Buffer.alloc(65565); let len = new_buf.length; var start = 1;
new_buf.copy(buf, start); if (len > 0) { req.size += len;
if ((buf[1] == 0) || (buf[1] == 123)) { start = 0; buf[0] = 0; len++; }
this._sock.send(buf.slice(start, start + len)); req.inflight++ }`.
The result is `(new req.size, new req.inflight, frame sent if any)`.
(`buf[1]` is always in range of the 65565-byte buffer, so the `getD`
default is never consulted.) -/
def upload_data_event (size inflight : Nat) (new_buf : List Nat) :
    Nat × Nat × Option (List Nat) :=
  let buf := bufferCopy (bufferAlloc 65565) 1 new_buf
  let len := new_buf.length
  if 0 < len then
    let size1 := size + len
    if buf.getD 1 0 == 0 || buf.getD 1 0 == 123 then
      (size1, inflight + 1, some (bufferSlice (buf.set 0 0) 0 (0 + (len + 1))))
    else
      (size1, inflight + 1, some (bufferSlice buf 1 (1 + len)))
  else (size, inflight, none)

/-- Helper: the zero-initialized frame after copying a chunk at offset 1 is
a zero byte, the chunk, and zero padding. -/
theorem bufferCopy_alloc_one (chunk : List Nat) (h : chunk.length ≤ 65564) :
    bufferCopy (bufferAlloc 65565) 1 chunk =
      0 :: (chunk ++ List.replicate (65564 - chunk.length) 0) := by
  unfold bufferCopy bufferAlloc
  rw [List.take_replicate, List.length_replicate, List.drop_replicate]
  rw [List.take_of_length_le (by omega)]
  have h1 : min 1 65565 = 1 := by omega
  rw [h1]
  have h2 : 65565 - (1 + chunk.length) = 65564 - chunk.length := by omega
  rw [h2]
  rfl

/-- Helper: full characterization of the frame sent for a non-empty chunk of
at most the chunker's size (65564 bytes): a chunk starting with `0x00` or
`0x7B` is sent with one extra leading zero byte, any other chunk is sent
unchanged. -/
theorem upload_frame_characterization (size inflight : Nat) (b : Nat) (rest : List Nat)
    (hlen : (b :: rest).length ≤ 65564) :
    upload_data_event size inflight (b :: rest) =
      (size + (b :: rest).length, inflight + 1,
        some (if b == 0 || b == 123 then 0 :: b :: rest else b :: rest)) := by
  have hcopy := bufferCopy_alloc_one (b :: rest) hlen
  simp only [upload_data_event, hcopy]
  have hg : (0 :: ((b :: rest) ++ List.replicate (65564 - (b :: rest).length) 0)).getD 1 0 = b :=
    rfl
  rw [hg]
  rw [if_pos (by simp : 0 < (b :: rest).length)]
  by_cases hb : (b == 0 || b == 123) = true
  · rw [if_pos hb, if_pos hb]
    refine congrArg (fun f => (size + (b :: rest).length, inflight + 1, f)) ?_
    show some (bufferSlice (0 :: ((b :: rest) ++ _)) 0 (0 + ((b :: rest).length + 1))) = _
    unfold bufferSlice
    rw [List.drop_zero, Nat.zero_add, List.take_succ_cons]
    rw [List.take_left]
  · rw [if_neg hb, if_neg hb]
    refine congrArg (fun f => (size + (b :: rest).length, inflight + 1, f)) ?_
    show some (bufferSlice (0 :: ((b :: rest) ++ _)) 1 (1 + (b :: rest).length)) = _
    unfold bufferSlice
    rw [show (1 + (b :: rest).length) = (b :: rest).length + 1 from Nat.add_comm _ _]
    rw [List.take_succ_cons]
    rw [List.take_left]
    rfl

/-- C1 (counterexample): for the chunk `[0x41]` the transmitted frame is the
chunk itself, `[0x41]` — its first wire byte is 0x41, not 0x00, so the
claim's "in every case the frame's first wire byte is 0x00" (and its
otherwise-branch reading) is false: `buf.slice(start, start + len)` with
`start = 1` skips the zero byte at offset 0. -/
theorem C1_upload_frame_counterexample :
    (upload_data_event 0 0 [65]).2.2 = some [65] ∧ (65 : Nat) ≠ 0 := by
  have h := upload_frame_characterization 0 0 65 [] (by decide)
  constructor
  · rw [h]; decide
  · decide

/-- C1 (amended): for every non-empty chunk of at most the chunker size, if
the chunk's first byte is 0x00 or 0x7B the transmitted frame is the chunk
prefixed with one extra 0x00 byte (first wire byte 0x00, second byte the
chunk's first byte, length increased by one); otherwise the transmitted
frame is the chunk unchanged, so its first wire byte is the chunk's own
first byte; in every case the frame's first wire byte is not the JSON
control-frame sentinel 0x7B, the request size grows by the chunk length and
the in-flight counter by one. -/
theorem C1_upload_frame_amended (size inflight : Nat) (b : Nat) (rest : List Nat)
    (hlen : (b :: rest).length ≤ 65564) :
    upload_data_event size inflight (b :: rest) =
      (size + (b :: rest).length, inflight + 1,
        some (if b == 0 || b == 123 then 0 :: b :: rest else b :: rest)) ∧
      (if b == 0 || b == 123 then 0 :: b :: rest else b :: rest).getD 0 0 ≠ 123 ∧
      (if b == 0 || b == 123 then 0 :: b :: rest else b :: rest).length =
        (if b == 0 || b == 123 then (b :: rest).length + 1 else (b :: rest).length) := by
  refine ⟨upload_frame_characterization size inflight b rest hlen, ?_, ?_⟩
  · by_cases hb : (b == 0 || b == 123) = true
    · simp [hb]
    · rw [if_neg (by simpa using hb)]
      have hb2 : ¬(b = 0 ∨ b = 123) := by simpa using hb
      push_neg at hb2
      simpa using hb2.2
  · by_cases hb : (b == 0 || b == 123) = true
    · simp [hb]
    · simp [hb]

/-- Witness for C1 (amended): a `[0x7B]` chunk is sent as `[0x00, 0x7B]`; a
`[0x41]` chunk is sent unchanged. -/
theorem C1_upload_frame_amended_witness :
    upload_data_event 0 0 [123] = (1, 1, some [0, 123]) ∧
      upload_data_event 5 2 [65] = (6, 3, some [65]) := by
  have h1 := (C1_upload_frame_amended 0 0 123 [] (by decide)).1
  have h2 := (C1_upload_frame_amended 5 2 65 [] (by decide)).1
  exact ⟨h1.trans (by decide), h2.trans (by decide)⟩

/-- Fields of a parsed JSON control frame as `_handle_download` reads them
(`cmd.action`, `cmd.sub`, `cmd.id`); absent fields are `none`
(JS `undefined`). -/
structure DlCmd where
  action : Option String
  sub : Option String
  id : Option String

/-- Inbound frame for `_handle_download`: either raw binary data (for which
`JSON.parse` throws, leaving `cmd === null`) or a parsed JSON control
command. -/
inductive DlMsg where
  | binary (raw : List Nat) : DlMsg
  | ctrl (cmd : DlCmd) : DlMsg

/-- State of one download request as `_handle_download` mutates it: the
bytes written to `req.target`, whether `req.target.end()` has been called,
`req.size`, the number of `{action:'download',sub:'ack'}` frames sent, the
number of `startack` frames sent, and the event emitted on `req.id`
(settling the request), if any. -/
structure DownloadState where
  written : List Nat
  ended : Bool
  size : Nat
  acked : Nat
  startAcked : Nat
  emitted : Option (String × Nat)

/-- Translation of `_Files._handle_download(raw_data, req)`. For a binary
frame: `if (raw_data.length > 4) { req.target.write(raw_data.slice(4));
req.size += raw_data.length-4 }`, then
`if ((raw_data[3] & 1) != 0) { req.target.end(); emit(req.id,
{result: "success", size: req.size}) } else { send download/ack }`
(an out-of-range `raw_data[3]` is `undefined`, and `undefined & 1` is 0,
matching the `getD` default). For a JSON frame: only `action == 'download'`
frames whose `id` equals `req.id` act — `sub == 'start'` answers with a
`startack`, `sub == 'cancel'` ends the target and emits a `canceled`
settlement carrying the byte count so far. -/
def handle_download (req_id : String) (st : DownloadState) (msg : DlMsg) : DownloadState :=
  match msg with
  | .binary raw =>
    let st1 :=
      if 4 < raw.length then
        { st with written := st.written ++ raw.drop 4, size := st.size + (raw.length - 4) }
      else st
    if raw.getD 3 0 % 2 == 1 then
      { st1 with ended := true, emitted := some ("success", st1.size) }
    else
      { st1 with acked := st1.acked + 1 }
  | .ctrl cmd =>
    if cmd.action == some "download" then
      if cmd.id != some req_id then st
      else if cmd.sub == some "start" then { st with startAcked := st.startAcked + 1 }
      else if cmd.sub == some "cancel" then
        { st with ended := true, emitted := some ("canceled", st.size) }
      else st
    else st

/-- C3: three non-final binary frames (header flag bit clear) followed by one
final frame (flag bit set), each longer than 4 bytes, append their payloads
(bytes after the 4-byte header) to the sink in arrival order; exactly one
acknowledgment is sent per non-final frame (three in total, none for the
final frame), no settlement or end happens before the final frame, and the
final frame ends the sink and settles the request with the accumulated byte
count. -/
theorem C3_download_stop_and_wait (st0 : DownloadState) (req_id : String)
    (f1 f2 f3 f4 : List Nat)
    (h1 : 4 < f1.length) (h2 : 4 < f2.length) (h3 : 4 < f3.length) (h4 : 4 < f4.length)
    (e1 : f1.getD 3 0 % 2 = 0) (e2 : f2.getD 3 0 % 2 = 0) (e3 : f3.getD 3 0 % 2 = 0)
    (e4 : f4.getD 3 0 % 2 = 1) :
    (handle_download req_id st0 (.binary f1)).written = st0.written ++ f1.drop 4 ∧
      (handle_download req_id st0 (.binary f1)).emitted = st0.emitted ∧
      (handle_download req_id st0 (.binary f1)).ended = st0.ended ∧
      (handle_download req_id st0 (.binary f1)).acked = st0.acked + 1 ∧
      (handle_download req_id
        (handle_download req_id
          (handle_download req_id
            (handle_download req_id st0 (.binary f1)) (.binary f2)) (.binary f3))
        (.binary f4)) =
      { written := st0.written ++ f1.drop 4 ++ f2.drop 4 ++ f3.drop 4 ++ f4.drop 4,
        ended := true,
        size := st0.size + (f1.length - 4) + (f2.length - 4) + (f3.length - 4)
          + (f4.length - 4),
        acked := st0.acked + 3,
        startAcked := st0.startAcked,
        emitted := some ("success",
          st0.size + (f1.length - 4) + (f2.length - 4) + (f3.length - 4)
            + (f4.length - 4)) } := by
  simp only [List.getD_eq_getElem?_getD] at e1 e2 e3 e4
  simp [handle_download, h1, h2, h3, h4, e1, e2, e3, e4]

/-- Witness for C3: three 5-byte data frames and a final 5-byte frame yield
the four payload bytes in order, three acknowledgments and a success
settlement of size 4. -/
theorem C3_download_stop_and_wait_witness :
    (handle_download "download_0"
      (handle_download "download_0"
        (handle_download "download_0"
          (handle_download "download_0" ⟨[], false, 0, 0, 0, none⟩ (.binary [0, 0, 0, 0, 9]))
          (.binary [0, 0, 0, 0, 8]))
        (.binary [0, 0, 0, 0, 7]))
      (.binary [0, 0, 0, 1, 6])) =
    { written := [9, 8, 7, 6], ended := true, size := 4, acked := 3, startAcked := 0,
      emitted := some ("success", 4) } := by
  have h := (C3_download_stop_and_wait ⟨[], false, 0, 0, 0, none⟩ "download_0"
    [0, 0, 0, 0, 9] [0, 0, 0, 0, 8] [0, 0, 0, 0, 7] [0, 0, 0, 1, 6]
    (by decide) (by decide) (by decide) (by decide)
    (by decide) (by decide) (by decide) (by decide)).2.2.2.2
  rw [h]; rfl

/-- Settlement state of one correlated request's single-fire waiter
(registered with `this._eventer.once(id, ...)` in `Session._send_command`). -/
inductive WaiterState where
  | pendingW : WaiterState
  | resolvedW : WaiterState
  | rejectedW (error : String) : WaiterState
deriving DecidableEq

/-- Model of a Tunnel owned by a Session, restricted to whether its
`close()` has been invoked. -/
structure SessTunnel where
  closeCalled : Bool
deriving DecidableEq

/-- Session state touched by the socket `close` handler: the live flag, the
readiness deferred, the in-flight id set, the per-id once-waiters, whether
the `close` topic has been emitted, and the three tunnel caches
(`_file_tunnels`, `_shell_tunnels`, `_smart_shell_tunnels`). -/
structure SessionState where
  alive : Bool
  initializedResolved : Bool
  initializedRejected : Bool
  inflight : List String
  waiters : List (String × WaiterState)
  closeEmitted : Bool
  fileTunnels : List SessTunnel
  shellTunnels : List SessTunnel
  smartShellTunnels : List SessTunnel

/-- Translation of `this._eventer.emit(id, new SocketError("Socket Closed"))`
meeting the once-handler of `Session._send_command`: the handler deletes the
id from `this._inflight` and, since a `SocketError` is an `Error`, rejects
the waiter with it. -/
def emit_socket_error (s : SessionState) (id : String) : SessionState :=
  { s with
    inflight := s.inflight.erase id,
    waiters := s.waiters.map fun w =>
      if w.1 == id then (w.1, .rejectedW "Socket Closed") else w }

/-- Translation of the `close` handler installed by `Session._initialize`:
`if (!this.initialized.resolved) this.initialized.reject("Closed")`;
`this.alive = false`; `for (let id of this._inflight)` emit a
`SocketError("Socket Closed")` to that id's waiter;
`this._eventer.emit("close", new SocketError("Socket Closed"))`; and
`tunnel.close()` on every tunnel in the three caches. -/
def session_on_close (s : SessionState) : SessionState :=
  let s1 := if s.initializedResolved then s else { s with initializedRejected := true }
  let s2 := { s1 with alive := false }
  let s3 := s2.inflight.foldl emit_socket_error s2
  let s4 := { s3 with closeEmitted := true }
  { s4 with
    fileTunnels := s4.fileTunnels.map fun t => { t with closeCalled := true },
    shellTunnels := s4.shellTunnels.map fun t => { t with closeCalled := true },
    smartShellTunnels := s4.smartShellTunnels.map fun t => { t with closeCalled := true } }

/-- Helper: folding the socket-error emission over a list of ids erases each
of them from the in-flight set, in order. -/
theorem emit_fold_inflight (l : List String) (s : SessionState) :
    (l.foldl emit_socket_error s).inflight =
      l.foldl (fun acc id => acc.erase id) s.inflight := by
  induction l generalizing s with
  | nil => rfl
  | cons a t ih => simp only [List.foldl_cons, ih, emit_socket_error]

/-- Helper: erasing, in order, every element of a duplicate-free list from
itself leaves the empty list. -/
theorem foldl_erase_self (l : List String) (hnd : l.Nodup) :
    l.foldl (fun acc id => acc.erase id) l = [] := by
  induction l with
  | nil => rfl
  | cons a t ih =>
    simp only [List.foldl_cons, List.erase_cons_head]
    exact ih (List.nodup_cons.mp hnd).2

/-- Helper: folding the socket-error emission over a list of ids rejects
exactly the waiters whose id is in the list. -/
theorem emit_fold_waiters (l : List String) (s : SessionState) :
    (l.foldl emit_socket_error s).waiters =
      s.waiters.map fun w =>
        if w.1 ∈ l then (w.1, WaiterState.rejectedW "Socket Closed") else w := by
  induction l generalizing s with
  | nil =>
    simp only [List.foldl_nil, List.not_mem_nil, if_false]
    exact (List.map_id' s.waiters).symm
  | cons a t ih =>
    simp only [List.foldl_cons, ih, emit_socket_error, List.map_map]
    apply List.map_congr_left
    intro w _
    by_cases ha : w.1 = a
    · by_cases hw : w.1 ∈ t <;>
        simp [Function.comp, ha, hw]
    · have hba : (w.1 == a) = false := beq_eq_false_iff_ne.mpr ha
      by_cases hw : w.1 ∈ t <;>
        simp [Function.comp, hba, ha, hw]

/-- Helper: the socket-error fold leaves every component other than
`inflight` and `waiters` unchanged. -/
theorem emit_fold_others (l : List String) (s : SessionState) :
    (l.foldl emit_socket_error s).alive = s.alive ∧
      (l.foldl emit_socket_error s).initializedResolved = s.initializedResolved ∧
      (l.foldl emit_socket_error s).initializedRejected = s.initializedRejected ∧
      (l.foldl emit_socket_error s).closeEmitted = s.closeEmitted ∧
      (l.foldl emit_socket_error s).fileTunnels = s.fileTunnels ∧
      (l.foldl emit_socket_error s).shellTunnels = s.shellTunnels ∧
      (l.foldl emit_socket_error s).smartShellTunnels = s.smartShellTunnels := by
  induction l generalizing s with
  | nil => exact ⟨rfl, rfl, rfl, rfl, rfl, rfl, rfl⟩
  | cons a t ih =>
    simp only [List.foldl_cons]
    exact ih _

/-- Helper: componentwise description of `session_on_close`. -/
theorem session_on_close_components (s : SessionState) :
    (session_on_close s).alive = false ∧
      (session_on_close s).inflight =
        s.inflight.foldl (fun acc id => acc.erase id) s.inflight ∧
      (session_on_close s).waiters = (s.waiters.map fun w =>
        if w.1 ∈ s.inflight then (w.1, WaiterState.rejectedW "Socket Closed") else w) ∧
      (session_on_close s).closeEmitted = true ∧
      (session_on_close s).initializedRejected =
        (if s.initializedResolved then s.initializedRejected else true) ∧
      (session_on_close s).fileTunnels =
        s.fileTunnels.map (fun t => { t with closeCalled := true }) ∧
      (session_on_close s).shellTunnels =
        s.shellTunnels.map (fun t => { t with closeCalled := true }) ∧
      (session_on_close s).smartShellTunnels =
        s.smartShellTunnels.map (fun t => { t with closeCalled := true }) := by
  have hinfl := emit_fold_inflight
  have hwait := emit_fold_waiters
  have hoth := fun l s => (emit_fold_others l s).1
  have hoth3 := fun l s => (emit_fold_others l s).2.2.1
  have hoth4 := fun l s => (emit_fold_others l s).2.2.2.1
  have hoth5 := fun l s => (emit_fold_others l s).2.2.2.2.1
  have hoth6 := fun l s => (emit_fold_others l s).2.2.2.2.2.1
  have hoth7 := fun l s => (emit_fold_others l s).2.2.2.2.2.2
  by_cases hres : s.initializedResolved <;>
    refine ⟨?_, ?_, ?_, ?_, ?_, ?_, ?_, ?_⟩ <;>
      simp [session_on_close, hres, hinfl, hwait, hoth, hoth3, hoth4, hoth5, hoth6, hoth7]

/-- C5: when the primary socket closes, the Session's live flag drops, the
in-flight set empties, every waiter whose id was pending is rejected with
the closed-socket error (and no waiter is lost — the waiter list keeps its
length), the `close` topic is emitted, the readiness future is rejected if
it had not resolved, and every cached tunnel of all three caches has its
`close()` invoked. -/
theorem C5_session_close_fanout (s : SessionState) (hnd : s.inflight.Nodup) :
    (session_on_close s).alive = false ∧
      (session_on_close s).inflight = [] ∧
      (∀ w ∈ (session_on_close s).waiters, w.1 ∈ s.inflight →
        w.2 = WaiterState.rejectedW "Socket Closed") ∧
      (session_on_close s).waiters.length = s.waiters.length ∧
      (session_on_close s).closeEmitted = true ∧
      (s.initializedResolved = false → (session_on_close s).initializedRejected = true) ∧
      (∀ t ∈ (session_on_close s).fileTunnels ++ (session_on_close s).shellTunnels ++
          (session_on_close s).smartShellTunnels, t.closeCalled = true) := by
  obtain ⟨ha, hi, hw, hc, hr, hf, hsh, hsm⟩ := session_on_close_components s
  refine ⟨ha, ?_, ?_, ?_, hc, ?_, ?_⟩
  · rw [hi]
    exact foldl_erase_self _ hnd
  · intro w hwm hmem
    rw [hw] at hwm
    simp only [List.mem_map] at hwm
    obtain ⟨w0, _, rfl⟩ := hwm
    by_cases hin : w0.1 ∈ s.inflight
    · simp [hin]
    · rw [if_neg hin] at hmem
      exact absurd hmem hin
  · rw [hw]; simp
  · intro h
    rw [hr, h]
    simp
  · intro t ht
    rw [hf, hsh, hsm] at ht
    simp only [List.mem_append, List.mem_map] at ht
    rcases ht with (⟨t0, _, rfl⟩ | ⟨t0, _, rfl⟩) | ⟨t0, _, rfl⟩ <;> rfl

/-- Witness for C5: a session with two pending requests; both waiters are
rejected with the closed-socket error, the in-flight set empties and the
lone cached file tunnel is closed. -/
theorem C5_session_close_fanout_witness :
    (session_on_close
      { alive := true, initializedResolved := false, initializedRejected := false,
        inflight := ["meshctrl_a_1", "meshctrl_b_1"],
        waiters := [("meshctrl_a_1", .pendingW), ("meshctrl_b_1", .pendingW)],
        closeEmitted := false, fileTunnels := [⟨false⟩], shellTunnels := [],
        smartShellTunnels := [] }).inflight = [] := by
  exact (C5_session_close_fanout
    { alive := true, initializedResolved := false, initializedRejected := false,
      inflight := ["meshctrl_a_1", "meshctrl_b_1"],
      waiters := [("meshctrl_a_1", .pendingW), ("meshctrl_b_1", .pendingW)],
      closeEmitted := false, fileTunnels := [⟨false⟩], shellTunnels := [],
      smartShellTunnels := [] } (by decide)).2.1

/-- Timing semantics of the `_Files` transfer queue. Every queued operation
(`_send_command`, `upload`, `download`) pushes its request onto
`this._request_queue` and appends its closure to the promise chain with
`this._download_finished = this._download_finished.then(r, r)`, so the k-th
queued request's closure runs exactly when the (k−1)-th chain promise
settles; the initial `_download_finished` is already resolved (time 0).
`alive t` is the tunnel's `this.alive` flag at time `t`; `settleTime (k+1)`
is the (environment-chosen) time at which the (k+1)-th request's `finished`
deferred settles when its frame was sent. `files_chain_settle k` is the time
the k-th chain promise settles: if the closure finds `this.alive` true it
sends the request's frame and returns `request.finished` (the chain settles
when that settles); otherwise it returns `undefined` and the chain promise
settles immediately. -/
def files_chain_settle (alive : Nat → Bool) (settleTime : Nat → Nat) : Nat → Nat
  | 0 => 0
  | k + 1 =>
    let run := files_chain_settle alive settleTime k
    if alive run then settleTime (k + 1) else run

/-- Truth of the `if (this.alive)` guard when the (k+1)-th queued request's
closure runs: exactly then is its frame written to the socket. -/
def files_sends_frame (alive : Nat → Bool) (settleTime : Nat → Nat) (k : Nat) : Bool :=
  alive (files_chain_settle alive settleTime k)

/-- C4: under the physical constraint that a dispatched request settles no
earlier than the moment its frame is sent, the `_Files` queue serializes:
chain-settlement times are monotone in queue order (so frames go out in the
order the requests were queued); the (k+1)-th request's frame is sent, at
time `files_chain_settle k`, only if the alive flag holds then; when it is
sent, the k+1-th chain promise settles exactly when that request settles
(and when it is not sent, the chain moves on immediately); and no later
queued request's closure can run — hence no later frame can be sent —
before the currently active request has settled: at most one request
consumes the wire at a time. -/
theorem C4_files_fifo_serialization (alive : Nat → Bool) (settleTime : Nat → Nat)
    (henv : ∀ k, alive (files_chain_settle alive settleTime k) = true →
      files_chain_settle alive settleTime k ≤ settleTime (k + 1)) :
    (∀ i j, i ≤ j →
      files_chain_settle alive settleTime i ≤ files_chain_settle alive settleTime j) ∧
      (∀ k, files_sends_frame alive settleTime k = true →
        files_chain_settle alive settleTime (k + 1) = settleTime (k + 1)) ∧
      (∀ k, files_sends_frame alive settleTime k = false →
        files_chain_settle alive settleTime (k + 1) = files_chain_settle alive settleTime k) ∧
      (∀ k j, files_sends_frame alive settleTime k = true → k + 1 ≤ j →
        settleTime (k + 1) ≤ files_chain_settle alive settleTime j) := by
  have hstep : ∀ k,
      files_chain_settle alive settleTime k ≤ files_chain_settle alive settleTime (k + 1) := by
    intro k
    show files_chain_settle alive settleTime k ≤
      (if alive (files_chain_settle alive settleTime k) then settleTime (k + 1)
       else files_chain_settle alive settleTime k)
    by_cases ha : alive (files_chain_settle alive settleTime k) = true
    · rw [if_pos ha]
      exact henv k ha
    · rw [if_neg ha]
  have hmono : ∀ i j, i ≤ j →
      files_chain_settle alive settleTime i ≤ files_chain_settle alive settleTime j := by
    intro i j hij
    induction j with
    | zero => simp_all
    | succ m ih =>
      rcases Nat.lt_or_ge i (m + 1) with hlt | hge
      · exact Nat.le_trans (ih (Nat.lt_succ_iff.mp hlt)) (hstep m)
      · have : i = m + 1 := Nat.le_antisymm hij hge
        subst this
        exact Nat.le_refl _
  have hsend : ∀ k, files_sends_frame alive settleTime k = true →
      files_chain_settle alive settleTime (k + 1) = settleTime (k + 1) := by
    intro k hk
    show (if alive (files_chain_settle alive settleTime k) then settleTime (k + 1)
      else files_chain_settle alive settleTime k) = settleTime (k + 1)
    rw [if_pos (show alive (files_chain_settle alive settleTime k) = true from hk)]
  refine ⟨hmono, hsend, ?_, ?_⟩
  · intro k hk
    show (if alive (files_chain_settle alive settleTime k) then settleTime (k + 1)
      else files_chain_settle alive settleTime k) = files_chain_settle alive settleTime k
    rw [if_neg (by simp [files_sends_frame] at hk; simp [hk])]
  · intro k j hk hj
    calc settleTime (k + 1) = files_chain_settle alive settleTime (k + 1) := (hsend k hk).symm
      _ ≤ files_chain_settle alive settleTime j := hmono _ _ hj

/-- Witness for C4: with the tunnel always alive and request k settling at
time k, the first request's settlement time bounds the second's send time. -/
theorem C4_files_fifo_serialization_witness :
    (fun k : Nat => k) (0 + 1) ≤ files_chain_settle (fun _ => true) (fun k => k) 2 := by
  have hc : ∀ k, files_chain_settle (fun _ => true) (fun k => k) k = k := by
    intro k
    induction k with
    | zero => rfl
    | succ m ih => simp [files_chain_settle, ih]
  exact (C4_files_fifo_serialization (fun _ => true) (fun k => k)
    (fun k _ => by rw [hc k]; exact Nat.le_succ k)).2.2.2 0 2 (by decide) (by omega)
